import Mathlib

/-!
Verification of the pyMMF scalar multimode-fiber mode solver
(src/pyMMF/pyMMF.py) against its natural-language specification.

The Python source is shallowly embedded: machine floats are modelled as
real numbers, complex arrays as lists of complex numbers, 2D fields as
their row-major flattening, and Python control flow (assertions,
exceptions, returning None) as explicit result types.
-/

namespace PyMMF

noncomputable section

/-- Result of a Python call: an uncaught exception escaped, the function
returned the value None, or it returned a proper value. -/
inductive PyRet (α : Type) where
  | raised : PyRet α
  | noneRet : PyRet α
  | value : α → PyRet α

/-- Modelled from the spec: the external IndexProfile provider (its source
file, index_profile.py, is not under src/). It exposes the grid side count
npoints, the grid spacing dh, the sampled refractive index field n and the
coordinate fields X and Y; the 2D fields are stored here row-major
flattened, as the solver consumes them through .flatten(). -/
structure IndexProfile where
  npoints : ℕ
  dh : ℝ
  n : List ℝ
  X : List ℝ
  Y : List ℝ

/-- Minimum of a nonempty list of reals, as np.min over a flattened array. -/
def listMin : List ℝ → ℝ
  | [] => 0
  | x :: xs => xs.foldl min x

/-- Maximum of a nonempty list of reals, as np.max over a flattened array. -/
def listMax : List ℝ → ℝ
  | [] => 0
  | x :: xs => xs.foldl max x

/-- Sum of the squared magnitudes of a complex vector:
np.sum(np.abs(v) ** 2). -/
def sumAbsSq (v : List ℂ) : ℝ := (v.map fun z => Complex.abs z ^ 2).sum

/-- Division of each entry of a profile by the square root of its summed
squared magnitudes (pyMMF.py line 559). -/
def normalizeProfile (v : List ℂ) : List ℂ :=
  v.map fun z => z / ((Real.sqrt (sumAbsSq v) : ℝ) : ℂ)

/-- State of a Modes object (pyMMF.py, class Modes). The fields unused by
the verified claims (u, w, modesList, m, l) are omitted. curvatureAttr
models the self.curvature attribute: Modes.__init__ never creates it, so
a fresh object carries none (and attribute access raises AttributeError);
some c models an attribute holding the value c (itself None or a float). -/
structure PyModes where
  betas : List ℝ
  profiles : List (List ℂ)
  number : ℕ
  wl : Option ℝ
  indexProfile : Option IndexProfile
  modeMatrix : Option (ℕ → ℕ → ℂ)
  curvatureAttr : Option (Option ℝ)

/-- Modes.__init__ (pyMMF.py lines 66-77): betas = [], profiles = [],
number = 0, wl = None, indexProfile = None, modeMatrix = None, and no
curvature attribute is created. -/
def freshModes : PyModes :=
  { betas := [], profiles := [], number := 0, wl := none,
    indexProfile := none, modeMatrix := none, curvatureAttr := none }

/-- Guided-band acceptance test of pyMMF.py line 555:
betasq > beta_min ** 2 and betasq < beta_max ** 2. Eigenvalues are
modelled as real numbers: the guided-band test concerns the real
eigenvalues of the straight-fiber operator (numpy orders complex scalars
by real part first, and the spec notes lambda is real for guided modes). -/
def accept (bmin bmax lam : ℝ) : Prop := bmin ^ 2 < lam ∧ lam < bmax ^ 2

instance (bmin bmax lam : ℝ) : Decidable (accept bmin bmax lam) :=
  inferInstanceAs (Decidable (bmin ^ 2 < lam ∧ lam < bmax ^ 2))

/-- One pass of the eigenpair selection loop of solve (pyMMF.py lines
553-559). On acceptance the source appends sqrt(betasq) to betas,
increments number, appends the raw eigenvector and then rescales that
last entry in place; the net effect, appending the rescaled profile, is
used here. A rejected eigenpair leaves the state unchanged. -/
def acceptStep (bmin bmax : ℝ) (m : PyModes) (p : ℝ × List ℂ) : PyModes :=
  if accept bmin bmax p.1 then
    { m with betas := m.betas ++ [Real.sqrt p.1],
             number := m.number + 1,
             profiles := m.profiles ++ [normalizeProfile p.2] }
  else m

/-- Wavenumber k0 = 2 pi / wl (pyMMF.py line 490). -/
def waveNumber (wl : ℝ) : ℝ := 2 * Real.pi / wl

/-- Lower edge of the guided band, beta_min = k0 * np.min(n)
(pyMMF.py line 543). -/
def betaMin (wl : ℝ) (ip : IndexProfile) : ℝ := waveNumber wl * listMin ip.n

/-- Upper edge of the guided band, beta_max = k0 * np.max(n)
(pyMMF.py line 544). -/
def betaMax (wl : ℝ) (ip : IndexProfile) : ℝ := waveNumber wl * listMax ip.n

/-- The Modes object built by propagationModeSolver.solve (pyMMF.py lines
549-559) from the eigenpairs returned by the sparse eigensolver: wl and
the index profile are attached to a fresh Modes object, then the
selection loop runs over the eigenpairs in order. -/
def solveModes (wl : ℝ) (ip : IndexProfile) (pairs : List (ℝ × List ℂ)) :
    PyModes :=
  pairs.foldl (acceptStep (betaMin wl ip) (betaMax wl ip))
    { freshModes with wl := some wl, indexProfile := some ip }

/-- estimateNumModesGRIN (pyMMF.py lines 316-318): with k0 = 2 pi / wl and
V = k0 * a * NA, return np.ceil(V ** 2 / 4) as an integer. -/
def estimateNumModesGRIN (wl a NA : ℝ) : ℤ :=
  let k0 := 2 * Real.pi / wl
  let V := k0 * a * NA
  Int.ceil (V ^ 2 / 4)

/-- estimateNumModesSI (pyMMF.py lines 341-343): with k0 = 2 pi / wl and
V = k0 * a * NA, return np.ceil(V ** 2 / 2) as an integer. -/
def estimateNumModesSI (wl a NA : ℝ) : ℤ :=
  let k0 := 2 * Real.pi / wl
  let V := k0 * a * NA
  Int.ceil (V ^ 2 / 2)

/-- Angle conversion applied in Modes.getModeMatrix, pyMMF.py line 114:
angle / np.pi * 180. -/
def rotationAngleConvert (angle : ℝ) : ℝ := angle / Real.pi * 180

/-- Radians-to-degrees conversion in the form the specification demands:
angle * 180 / pi. -/
def radiansToDegrees (angle : ℝ) : ℝ := angle * 180 / Real.pi

/-- Offsets passed to scipy.sparse.diags at pyMMF.py line 539:
[0, -1, 1, -npoints, npoints], always five of them. -/
def offsetsList (npoints : ℕ) : List ℤ := [0, -1, 1, -(npoints : ℤ), (npoints : ℤ)]

/-- Main diagonal -4/dh^2 + k0^2 * n_flat^2 over the row-major flattening
of the index field (pyMMF.py line 496). -/
def mainDiag (dh k0 : ℝ) (nflat : List ℝ) : List ℝ :=
  nflat.map fun x => -4 / dh ^ 2 + k0 ^ 2 * x ^ 2

/-- The array appended for each of the two unit-offset diagonals
(pyMMF.py lines 514-515, and 500-501 of the periodic branch):
([1./dh**2]*(npoints-1)+[0.])*(npoints-1)+[1./dh**2]*(npoints-1). -/
def couplingDiag1 (dh : ℝ) (npoints : ℕ) : List ℝ :=
  (List.replicate (npoints - 1)
    (List.replicate (npoints - 1) (1 / dh ^ 2) ++ [0])).flatten
    ++ List.replicate (npoints - 1) (1 / dh ^ 2)

/-- The array appended for each of the two npoints-offset diagonals
(pyMMF.py lines 517-518, and 502-503): [1./dh**2]*npoints*(npoints-1). -/
def couplingDiagN (dh : ℝ) (npoints : ℕ) : List ℝ :=
  List.replicate (npoints * (npoints - 1)) (1 / dh ^ 2)

/-- Wrap array appended twice in the periodic branch (pyMMF.py lines
505-506): ([0]*(npoints-1)+[1./dh**2])*(npoints-1)+[0]*(npoints-1). -/
def wrapDiagRow (dh : ℝ) (npoints : ℕ) : List ℝ :=
  (List.replicate (npoints - 1)
    (List.replicate (npoints - 1) (0 : ℝ) ++ [1 / dh ^ 2])).flatten
    ++ List.replicate (npoints - 1) 0

/-- Wrap array appended twice in the periodic branch (pyMMF.py lines
508-509): [1./dh**2]*npoints. -/
def wrapDiagCol (dh : ℝ) (npoints : ℕ) : List ℝ :=
  List.replicate npoints (1 / dh ^ 2)

/-- The list of diagonal arrays assembled by solve before the operator is
built (pyMMF.py lines 492-518, on the curvature = None path the verified
claims concern): the main diagonal first, then for the periodic boundary
eight further arrays, for the close boundary four, and for any other
boundary string nothing at all. -/
def buildDiags (boundary : String) (dh k0 : ℝ) (nflat : List ℝ)
    (npoints : ℕ) : List (List ℝ) :=
  let d0 := mainDiag dh k0 nflat
  if boundary = "periodic" then
    [d0, couplingDiag1 dh npoints, couplingDiag1 dh npoints,
     couplingDiagN dh npoints, couplingDiagN dh npoints,
     wrapDiagRow dh npoints, wrapDiagRow dh npoints,
     wrapDiagCol dh npoints, wrapDiagCol dh npoints]
  else if boundary = "close" then
    [d0, couplingDiag1 dh npoints, couplingDiag1 dh npoints,
     couplingDiagN dh npoints, couplingDiagN dh npoints]
  else [d0]

/-- Value contributed at entry (i, j) by one diagonal array d of offset k:
scipy.sparse.diags places d[i] at (i, i + k) for a nonnegative offset and
d[j] at (j - k, j) for a negative one. -/
def diagEntry (k : ℤ) (d : List ℝ) (i j : ℕ) : ℝ :=
  if (j : ℤ) = (i : ℤ) + k then (if 0 ≤ k then d.getD i 0 else d.getD j 0)
  else 0

/-- Model of scipy.sparse.diags on an N x N result: it demands exactly as
many diagonal arrays as offsets, each of the length N - |offset| of its
diagonal, and raises ValueError otherwise (modelled as none). -/
def sparseDiags (dlists : List (List ℝ)) (offsets : List ℤ) (N : ℕ) :
    Option (ℕ → ℕ → ℝ) :=
  if dlists.length = offsets.length
      ∧ ∀ kd ∈ offsets.zip dlists, kd.2.length = N - kd.1.natAbs then
    some fun i j => ((offsets.zip dlists).map fun kd => diagEntry kd.1 kd.2 i j).sum
  else none

/-- Operator construction performed by solve (pyMMF.py lines 492-539):
H = sparse.diags(diags, [0, -1, 1, -npoints, npoints]) on the
npoints^2-dimensional grid. -/
def solveOperator (boundary : String) (dh k0 : ℝ) (nflat : List ℝ)
    (npoints : ℕ) : Option (ℕ → ℕ → ℝ) :=
  sparseDiags (buildDiags boundary dh k0 nflat npoints) (offsetsList npoints)
    (npoints * npoints)

/-- Python list repetition l * n, as in betas_vec = self.betas * npola
(pyMMF.py line 210). -/
def pyListMul (l : List ℝ) (n : ℕ) : List ℝ := (List.replicate n l).flatten

/-- Diagonal matrix np.diag(l).astype(complex) as a total function on
indices (pyMMF.py line 211). -/
def diagFun (l : List ℝ) : ℕ → ℕ → ℂ :=
  fun i j => if i = j then ((l.getD i 0 : ℝ) : ℂ) else 0

/-- Modes.getModeMatrix restricted to shift = None and angle = None, the
only call made from getEvolutionOperator (pyMMF.py lines 112-122 with N =
profiles[0].shape[0]): column pol * number + ind of polarization block pol
holds profile ind in rows pol * N .. (pol + 1) * N - 1, zero elsewhere. -/
def getModeMatrixFun (m : PyModes) (npola : ℕ) : ℕ → ℕ → ℂ :=
  let N := (m.profiles.headD []).length
  fun r c =>
    if r < N * npola ∧ c < npola * m.number ∧ r / N = c / m.number then
      (m.profiles.getD (c % m.number) []).getD (r % N) 0
    else 0

/-- Modes.getEvolutionOperator (pyMMF.py lines 166-230). The base operator
is the diagonal matrix of betas repeated npola times (Python list
repetition). With a curvature supplied, assert(self.wl) and
assert(self.indexProfile) raise on a missing value (or a zero wl, which
is falsy); then the source runs try: assert(self.curvature == None)
followed by a bare except that logs an error and returns None - the bare
except also catches the AttributeError raised because Modes.__init__
never creates the curvature attribute. Past that guard, the scalar mode
matrix M is rebuilt (the second getModeMatrix call uses its default
npola = 1), A = M^H diag(X_flat) M is formed and
B - min(n) * k0 / curvature * A is returned. -/
def getEvolutionOperator (m : PyModes) (npola : ℕ) (curvature : Option ℝ) :
    PyRet (ℕ → ℕ → ℂ) :=
  let B := diagFun (pyListMul m.betas npola)
  match curvature with
  | none => PyRet.value B
  | some R =>
    match m.wl, m.indexProfile with
    | none, _ => PyRet.raised
    | some _, none => PyRet.raised
    | some w, some ip =>
      if w = 0 then PyRet.raised
      else
        match m.curvatureAttr with
        | none => PyRet.noneRet
        | some (some _) => PyRet.noneRet
        | some none =>
          if m.profiles = [] then PyRet.raised
          else
            let M := getModeMatrixFun m 1
            let N := (m.profiles.headD []).length
            let A : ℕ → ℕ → ℂ := fun i j =>
              (Finset.range N).sum fun k =>
                (starRingEnd ℂ) (M k i) * ((ip.X.getD k 0 : ℝ) : ℂ) * M k j
            let k0 := waveNumber w
            PyRet.value fun i j =>
              B i j - ((listMin ip.n * k0 / R : ℝ) : ℂ) * A i j

/-- Modes.getPropagationMatrix (pyMMF.py lines 233-276): it computes
T = self.getEvolutionOperator(npola, curvature) and then executes
return expm(complex(0,1) * B * distance), where the name B is bound
nowhere in scope, so every call that reaches line 276 raises NameError;
the computed T is never used (and an exception inside the evolution
operator call propagates). -/
def getPropagationMatrix (m : PyModes) (distance : ℝ) (npola : ℕ)
    (curvature : Option ℝ) : PyRet (ℕ → ℕ → ℂ) :=
  match getEvolutionOperator m npola curvature with
  | PyRet.raised => PyRet.raised
  | PyRet.noneRet => PyRet.raised
  | PyRet.value _ => PyRet.raised

/-- Contents of the compressed archive written by
propagationModeSolver.saveData (pyMMF.py lines 584-589), one field per
named array. -/
structure SavedArchive where
  betas : List ℝ
  mode_profiles : List ℂ
  index_profile : List ℝ
  X : List ℝ
  Y : List ℝ

/-- propagationModeSolver.saveData (pyMMF.py lines 575-590): it asserts a
solved Mode Set is stored, reads mode_profiles = self.modes.profiles[1]
(an IndexError, modelled as none, when fewer than two profiles are
stored) and Y = self.indexProfile.X (line 583), and writes the archive. -/
def saveData (storedModes : Option PyModes) (ip : IndexProfile) :
    Option SavedArchive :=
  match storedModes with
  | none => none
  | some m =>
    match m.profiles[1]? with
    | none => none
    | some p =>
      some { betas := m.betas, mode_profiles := p, index_profile := ip.n,
             X := ip.X, Y := ip.X }

/-- Concrete index profile used to instantiate hypotheses: a 2 x 2 grid of
unit spacing whose index field ranges over [1, 2]. -/
def ipEx : IndexProfile :=
  { npoints := 2, dh := 1, n := [1, 1, 1, 2], X := [0, 1, 0, 1],
    Y := [0, 0, 1, 1] }

end

/-- Distributing a scalar division over a profile divides its summed
squared magnitudes by the squared magnitude of the scalar. -/
theorem sumAbsSq_map_div (v : List ℂ) (c : ℂ) :
    sumAbsSq (v.map fun z => z / c) = sumAbsSq v / Complex.abs c ^ 2 := by
  induction v with
  | nil => simp [sumAbsSq]
  | cons a t ih =>
    simp only [sumAbsSq, List.map_cons, List.map_map, List.sum_cons] at *
    rw [ih, map_div₀, div_pow, add_div]

/-- Summed squared magnitudes are nonnegative. -/
theorem sumAbsSq_nonneg (v : List ℂ) : 0 ≤ sumAbsSq v := by
  refine List.sum_nonneg ?_
  intro x hx
  simp only [List.mem_map] at hx
  obtain ⟨z, _, rfl⟩ := hx
  positivity

/-- Dividing a profile of positive summed squared magnitudes by the square
root of that sum yields a profile of unit L2 norm. -/
theorem sumAbsSq_normalizeProfile (v : List ℂ) (h : 0 < sumAbsSq v) :
    sumAbsSq (normalizeProfile v) = 1 := by
  rw [normalizeProfile, sumAbsSq_map_div, Complex.abs_ofReal,
    abs_of_nonneg (Real.sqrt_nonneg _), Real.sq_sqrt h.le,
    div_self h.ne']

/-- Unfolding of the whole eigenpair selection loop: starting from any
state, the loop appends the square roots of the accepted eigenvalues to
betas, the rescaled accepted eigenvectors to profiles, adds the number of
accepted eigenpairs to number, and touches no other field. -/
theorem foldl_acceptStep_eq (bmin bmax : ℝ) (pairs : List (ℝ × List ℂ))
    (init : PyModes) :
    pairs.foldl (acceptStep bmin bmax) init =
      { init with
        betas := init.betas ++
          ((pairs.filter fun p => decide (accept bmin bmax p.1)).map
            fun p => Real.sqrt p.1),
        profiles := init.profiles ++
          ((pairs.filter fun p => decide (accept bmin bmax p.1)).map
            fun p => normalizeProfile p.2),
        number := init.number +
          (pairs.filter fun p => decide (accept bmin bmax p.1)).length } := by
  induction pairs generalizing init with
  | nil => simp
  | cons a t ih =>
    by_cases h : accept bmin bmax a.1
    · rw [List.foldl_cons, ih]
      simp [acceptStep, h, List.filter_cons, List.append_assoc]
      omega
    · rw [List.foldl_cons, ih]
      simp [acceptStep, h, List.filter_cons]

/-- C8 counterexample: no input angle distinguishes the conversion
angle / pi * 180 applied at pyMMF.py line 114 from the conversion
angle * 180 / pi the specification calls the correct one - the claimed
differing input does not exist. -/
theorem rotation_conversion_no_differing_angle :
    ¬ ∃ angle : ℝ, rotationAngleConvert angle ≠ radiansToDegrees angle := by
  rintro ⟨a, ha⟩
  apply ha
  unfold rotationAngleConvert radiansToDegrees
  ring

/-- C8 amended: the conversion angle / pi * 180 applied in getModeMatrix
equals angle * 180 / pi at every angle, so it is exactly the
radians-to-degrees conversion and carries no units bug. -/
theorem rotation_conversion_equals_rad_to_deg :
    ∀ angle : ℝ, rotationAngleConvert angle = radiansToDegrees angle := by
  intro a
  unfold rotationAngleConvert radiansToDegrees
  ring

/-- C6 counterexample: at wl = 2 pi, a = 1, NA = 1 (so wl > 0 and V = 1)
the step-index estimate ceil(1/2) = 1 differs from twice the graded-index
estimate 2 * ceil(1/4) = 2. -/
theorem estimate_SI_not_twice_GRIN :
    (0 : ℝ) < 2 * Real.pi ∧
      estimateNumModesSI (2 * Real.pi) 1 1 ≠
        2 * estimateNumModesGRIN (2 * Real.pi) 1 1 := by
  have hpi : (0 : ℝ) < 2 * Real.pi := by positivity
  refine ⟨hpi, ?_⟩
  have hV : 2 * Real.pi / (2 * Real.pi) * 1 * 1 = (1 : ℝ) := by
    field_simp
  simp only [estimateNumModesSI, estimateNumModesGRIN, hV]
  have ha : (⌈(1 : ℝ) ^ 2 / 2⌉ : ℤ) = 1 := by
    rw [Int.ceil_eq_iff]
    norm_num
  have hb : (⌈(1 : ℝ) ^ 2 / 4⌉ : ℤ) = 1 := by
    rw [Int.ceil_eq_iff]
    norm_num
  rw [ha, hb]
  decide

/-- C6 amended: for every wl > 0 and every a, NA, the step-index estimate
lies within one of twice the graded-index estimate:
2 * GRIN - 1 <= SI <= 2 * GRIN (exact equality fails only by the
interaction of the two ceilings). -/
theorem estimate_SI_within_one_of_twice_GRIN (wl a NA : ℝ) (h : 0 < wl) :
    estimateNumModesSI wl a NA ≤ 2 * estimateNumModesGRIN wl a NA ∧
      2 * estimateNumModesGRIN wl a NA ≤ estimateNumModesSI wl a NA + 1 := by
  simp only [estimateNumModesSI, estimateNumModesGRIN]
  set y : ℝ := (2 * Real.pi / wl * a * NA) ^ 2 / 4 with hy
  have h2 : (2 * Real.pi / wl * a * NA) ^ 2 / 2 = 2 * y := by
    rw [hy]; ring
  rw [h2]
  constructor
  · refine Int.ceil_le.mpr ?_
    push_cast
    have := Int.le_ceil y
    nlinarith
  · have h3 : (Int.ceil y : ℝ) < y + 1 := Int.ceil_lt_add_one y
    have h4 : (2 * y : ℝ) ≤ (Int.ceil (2 * y) : ℝ) := Int.le_ceil _
    have h5 : ((2 * Int.ceil y : ℤ) : ℝ) < ((Int.ceil (2 * y) + 2 : ℤ) : ℝ) := by
      push_cast
      nlinarith
    have h6 : (2 * Int.ceil y : ℤ) < Int.ceil (2 * y) + 2 := by
      exact_mod_cast h5
    omega

/-- C6 amended, witness at wl = 1, a = 0, NA = 0: both bounds hold there. -/
theorem estimate_SI_within_one_of_twice_GRIN_witness :
    (0 : ℝ) < 1 ∧
      (estimateNumModesSI 1 0 0 ≤ 2 * estimateNumModesGRIN 1 0 0 ∧
        2 * estimateNumModesGRIN 1 0 0 ≤ estimateNumModesSI 1 0 0 + 1) :=
  ⟨by norm_num, estimate_SI_within_one_of_twice_GRIN 1 0 0 (by norm_num)⟩

/-- C1: the selection loop of solve accepts an eigenpair exactly when its
eigenvalue lies strictly between beta_min^2 and beta_max^2 (beta_min =
k0 min n, beta_max = k0 max n), stores beta = sqrt(eigenvalue) for each
accepted pair, stores its eigenvector divided by the square root of the
sum of squared magnitudes, and (the eigensolver returning nonzero
vectors) every stored profile has unit L2 norm. -/
theorem solve_guided_band_selection (wl : ℝ) (ip : IndexProfile)
    (pairs : List (ℝ × List ℂ))
    (hnz : ∀ p ∈ pairs, 0 < sumAbsSq p.2) :
    (solveModes wl ip pairs).betas =
        ((pairs.filter fun p =>
          decide (accept (betaMin wl ip) (betaMax wl ip) p.1)).map
          fun p => Real.sqrt p.1) ∧
      (solveModes wl ip pairs).profiles =
        ((pairs.filter fun p =>
          decide (accept (betaMin wl ip) (betaMax wl ip) p.1)).map
          fun p => normalizeProfile p.2) ∧
      ∀ q ∈ (solveModes wl ip pairs).profiles, sumAbsSq q = 1 := by
  have hfold := foldl_acceptStep_eq (betaMin wl ip) (betaMax wl ip) pairs
    { freshModes with wl := some wl, indexProfile := some ip }
  have h1 : (solveModes wl ip pairs).betas =
      ((pairs.filter fun p =>
        decide (accept (betaMin wl ip) (betaMax wl ip) p.1)).map
        fun p => Real.sqrt p.1) := by
    rw [solveModes, hfold]
    simp [freshModes]
  have h2 : (solveModes wl ip pairs).profiles =
      ((pairs.filter fun p =>
        decide (accept (betaMin wl ip) (betaMax wl ip) p.1)).map
        fun p => normalizeProfile p.2) := by
    rw [solveModes, hfold]
    simp [freshModes]
  refine ⟨h1, h2, ?_⟩
  intro q hq
  rw [h2] at hq
  obtain ⟨p, hp, rfl⟩ := List.mem_map.mp hq
  exact sumAbsSq_normalizeProfile _ (hnz p (List.mem_of_mem_filter hp))

/-- C1 witness: one eigenpair with eigenvalue 2 and eigenvector [1], on a
grid with index range [1, 2] at wl = 2 pi, so that the guided band is
1 < lambda < 4. -/
theorem solve_guided_band_selection_witness :
    (∀ p ∈ [((2 : ℝ), [(1 : ℂ)])], 0 < sumAbsSq p.2) ∧
      ((solveModes (2 * Real.pi) ipEx [((2 : ℝ), [(1 : ℂ)])]).betas =
          (([((2 : ℝ), [(1 : ℂ)])].filter fun p =>
            decide (accept (betaMin (2 * Real.pi) ipEx)
              (betaMax (2 * Real.pi) ipEx) p.1)).map
            fun p => Real.sqrt p.1) ∧
        (solveModes (2 * Real.pi) ipEx [((2 : ℝ), [(1 : ℂ)])]).profiles =
          (([((2 : ℝ), [(1 : ℂ)])].filter fun p =>
            decide (accept (betaMin (2 * Real.pi) ipEx)
              (betaMax (2 * Real.pi) ipEx) p.1)).map
            fun p => normalizeProfile p.2) ∧
        ∀ q ∈ (solveModes (2 * Real.pi) ipEx [((2 : ℝ), [(1 : ℂ)])]).profiles,
          sumAbsSq q = 1) := by
  have hnz : ∀ p ∈ [((2 : ℝ), [(1 : ℂ)])], 0 < sumAbsSq p.2 := by
    intro p hp
    simp only [List.mem_singleton] at hp
    subst hp
    norm_num [sumAbsSq]
  exact ⟨hnz, solve_guided_band_selection _ _ _ hnz⟩

/-- Invariant of a Mode Set: as many betas as profiles as counted modes. -/
def modesInvariant (m : PyModes) : Prop :=
  m.betas.length = m.profiles.length ∧ m.profiles.length = m.number

/-- C10: a fresh Modes object has no betas, no profiles and number 0; an
acceptance appends exactly one beta and one profile and increments number
by one; the step preserves the length invariant, and every Mode Set
produced by solve satisfies it. -/
theorem mode_set_length_invariant (bmin bmax : ℝ) (m : PyModes)
    (p : ℝ × List ℂ) (hacc : accept bmin bmax p.1)
    (hinv : modesInvariant m) :
    (freshModes.betas.length = 0 ∧ freshModes.profiles.length = 0 ∧
        freshModes.number = 0) ∧
      acceptStep bmin bmax m p =
        { m with betas := m.betas ++ [Real.sqrt p.1],
                 profiles := m.profiles ++ [normalizeProfile p.2],
                 number := m.number + 1 } ∧
      modesInvariant (acceptStep bmin bmax m p) ∧
      ∀ (wl : ℝ) (ip : IndexProfile) (pairs : List (ℝ × List ℂ)),
        modesInvariant (solveModes wl ip pairs) := by
  refine ⟨⟨rfl, rfl, rfl⟩, ?_, ?_, ?_⟩
  · unfold acceptStep
    rw [if_pos hacc]
  · unfold acceptStep
    rw [if_pos hacc]
    obtain ⟨hbp, hpn⟩ := hinv
    constructor <;> simp [hbp, hpn]
  · intro wl ip pairs
    rw [solveModes, foldl_acceptStep_eq]
    constructor <;> simp [freshModes]

/-- C10 witness: the accepted eigenpair (2, [1]) within the band bounds
beta_min = 1, beta_max = 2, applied to a fresh Modes object. -/
theorem mode_set_length_invariant_witness :
    accept 1 2 2 ∧ modesInvariant freshModes ∧
      ((freshModes.betas.length = 0 ∧ freshModes.profiles.length = 0 ∧
          freshModes.number = 0) ∧
        acceptStep 1 2 freshModes ((2 : ℝ), [(1 : ℂ)]) =
          { freshModes with
              betas := freshModes.betas ++ [Real.sqrt ((2 : ℝ), [(1 : ℂ)]).1],
              profiles := freshModes.profiles ++
                [normalizeProfile ((2 : ℝ), [(1 : ℂ)]).2],
              number := freshModes.number + 1 } ∧
        modesInvariant (acceptStep 1 2 freshModes ((2 : ℝ), [(1 : ℂ)])) ∧
        ∀ (wl : ℝ) (ip : IndexProfile) (pairs : List (ℝ × List ℂ)),
          modesInvariant (solveModes wl ip pairs)) := by
  have hacc : accept 1 2 2 := by
    constructor <;> norm_num
  have hinv : modesInvariant freshModes := ⟨rfl, rfl⟩
  exact ⟨hacc, hinv,
    mode_set_length_invariant 1 2 freshModes ((2 : ℝ), [(1 : ℂ)]) hacc hinv⟩

/-- C5: with no curvature the evolution operator is exactly the diagonal
matrix of the betas repeated once per polarization (npola = 1 gives
diag(betas), npola = 2 repeats the betas), with zero off-diagonal
entries. -/
theorem evolution_operator_diag (m : PyModes) (i j : ℕ) (hij : i ≠ j) :
    getEvolutionOperator m 1 none = PyRet.value (diagFun m.betas) ∧
      getEvolutionOperator m 2 none =
        PyRet.value (diagFun (m.betas ++ m.betas)) ∧
      diagFun m.betas i j = 0 ∧ diagFun (m.betas ++ m.betas) i j = 0 := by
  refine ⟨?_, ?_, ?_, ?_⟩
  · show PyRet.value (diagFun (pyListMul m.betas 1)) = _
    rw [show pyListMul m.betas 1 = m.betas from by simp [pyListMul]]
  · show PyRet.value (diagFun (pyListMul m.betas 2)) = _
    rw [show pyListMul m.betas 2 = m.betas ++ m.betas from by simp [pyListMul]]
  · simp [diagFun, hij]
  · simp [diagFun, hij]

/-- C5 witness: a fresh Modes object at the off-diagonal position (0, 1). -/
theorem evolution_operator_diag_witness :
    (0 : ℕ) ≠ 1 ∧
      (getEvolutionOperator freshModes 1 none =
          PyRet.value (diagFun freshModes.betas) ∧
        getEvolutionOperator freshModes 2 none =
          PyRet.value (diagFun (freshModes.betas ++ freshModes.betas)) ∧
        diagFun freshModes.betas 0 1 = 0 ∧
        diagFun (freshModes.betas ++ freshModes.betas) 0 1 = 0) :=
  ⟨by decide, evolution_operator_diag freshModes 0 1 (by decide)⟩

/-- C4: on every Mode Set produced by solve (which attaches wl and the
index profile but never creates the curvature attribute), a request for
the curvature correction hits the AttributeError on self.curvature inside
the bare try/except and getEvolutionOperator returns None instead of the
claimed diag(betas) - min(n) k0 / R * A; no first application on a
straight-fiber solve ever succeeds. -/
theorem curvature_application_returns_null (wl : ℝ) (ip : IndexProfile)
    (pairs : List (ℝ × List ℂ)) (npola : ℕ) (R : ℝ) (hwl : wl ≠ 0) :
    getEvolutionOperator (solveModes wl ip pairs) npola (some R) =
      PyRet.noneRet := by
  rw [solveModes, foldl_acceptStep_eq]
  simp [getEvolutionOperator, freshModes, hwl]

/-- C4 witness: a straight-fiber solve at wl = 1 with no eigenpairs,
followed by a curvature request with R = 1000. -/
theorem curvature_application_returns_null_witness :
    (1 : ℝ) ≠ 0 ∧
      getEvolutionOperator (solveModes 1 ipEx []) 1 (some 1000) =
        PyRet.noneRet :=
  ⟨by norm_num, curvature_application_returns_null 1 ipEx [] 1 1000 (by norm_num)⟩

/-- C3: getPropagationMatrix never returns the matrix exponential of the
evolution operator - for every Mode Set state, distance (including 0),
polarization count and curvature argument, line 276 references the
unbound name B and the call raises NameError instead of returning the
identity at distance 0. -/
theorem propagation_matrix_always_raises (m : PyModes) (distance : ℝ)
    (npola : ℕ) (curvature : Option ℝ) :
    getPropagationMatrix m distance npola curvature = PyRet.raised := by
  unfold getPropagationMatrix
  cases getEvolutionOperator m npola curvature <;> rfl

/-- C2: at npoints = 2, dh = 1, k0 = 1, n ident. 1, the periodic branch
hands sparse.diags nine diagonal arrays against the five offsets
[0, -1, 1, -npoints, npoints] of line 539, so the construction raises
instead of building the claimed wrap-around diagonals; on the same grid
the close boundary does succeed with the claimed structure: main
diagonal -4/dh^2 + k0^2 n^2 = -3, unit-offset coupling 1/dh^2 = 1 zeroed
at every npoints-th entry, and npoints-offset coupling 1. -/
theorem periodic_boundary_construction_fails :
    (buildDiags "periodic" 1 1 [1, 1, 1, 1] 2).length = 9 ∧
      (offsetsList 2).length = 5 ∧
      solveOperator "periodic" 1 1 [1, 1, 1, 1] 2 = none ∧
      ∃ Hc, solveOperator "close" 1 1 [1, 1, 1, 1] 2 = some Hc ∧
        Hc 0 0 = -3 ∧ Hc 0 1 = 1 ∧ Hc 1 0 = 1 ∧ Hc 1 2 = 0 ∧ Hc 2 1 = 0 ∧
        Hc 2 3 = 1 ∧ Hc 0 2 = 1 ∧ Hc 1 3 = 1 ∧ Hc 0 3 = 0 := by
  refine ⟨by simp [buildDiags], by simp [offsetsList], ?_, ?_⟩
  · unfold solveOperator sparseDiags
    split_ifs with hcond
    · obtain ⟨hl, _⟩ := hcond
      simp [buildDiags, offsetsList] at hl
    · rfl
  · have hbd : buildDiags "close" (1 : ℝ) 1 [1, 1, 1, 1] 2 =
        [[-3, -3, -3, -3], [1, 0, 1], [1, 0, 1], [1, 1], [1, 1]] := by
      unfold buildDiags
      rw [if_neg (by decide : ¬ ("close" : String) = "periodic"),
        if_pos rfl]
      norm_num [mainDiag, couplingDiag1, couplingDiagN, List.replicate_succ]
    unfold solveOperator
    rw [hbd]
    unfold sparseDiags
    split_ifs with hcond
    · refine ⟨_, rfl, ?_, ?_, ?_, ?_, ?_, ?_, ?_, ?_, ?_⟩ <;>
        norm_num [offsetsList, diagEntry]
    · exfalso
      apply hcond
      constructor
      · simp [offsetsList]
      · intro kd hkd
        simp [offsetsList] at hkd
        rcases hkd with h | h | h | h | h <;> subst h <;> norm_num

/-- C7 counterexample: with the unrecognized boundary string "reflect" on
a 2 x 2 unit grid, solve does not silently produce a diagonal-only
operator - the sparse construction fails (one diagonal array against
five offsets). -/
theorem unknown_boundary_construction_fails :
    solveOperator "reflect" 1 1 [1, 1, 1, 1] 2 = none := by
  unfold solveOperator sparseDiags
  split_ifs with hcond
  · obtain ⟨hl, _⟩ := hcond
    simp [buildDiags, offsetsList] at hl
  · rfl

/-- C7 amended: for every boundary string matching neither "close" nor
"periodic", solve assembles only the main-diagonal potential term - no
coupling diagonals are added - but it does not succeed silently: the lone
diagonal array is handed to sparse.diags together with five offsets and
the construction fails. -/
theorem unknown_boundary_diag_only_then_error (boundary : String)
    (dh k0 : ℝ) (nflat : List ℝ) (npoints : ℕ) (hc : boundary ≠ "close")
    (hp : boundary ≠ "periodic") :
    buildDiags boundary dh k0 nflat npoints = [mainDiag dh k0 nflat] ∧
      solveOperator boundary dh k0 nflat npoints = none := by
  have h1 : buildDiags boundary dh k0 nflat npoints = [mainDiag dh k0 nflat] := by
    unfold buildDiags
    rw [if_neg hp, if_neg hc]
  refine ⟨h1, ?_⟩
  unfold solveOperator
  rw [h1]
  unfold sparseDiags
  split_ifs with hcond
  · obtain ⟨hl, _⟩ := hcond
    simp [offsetsList] at hl
  · rfl

/-- C7 amended, witness: the boundary string "reflect" on a 2 x 2 unit
grid. -/
theorem unknown_boundary_diag_only_then_error_witness :
    ("reflect" : String) ≠ "close" ∧ ("reflect" : String) ≠ "periodic" ∧
      (buildDiags "reflect" 1 1 [1, 1, 1, 1] 2 =
          [mainDiag 1 1 [1, 1, 1, 1]] ∧
        solveOperator "reflect" 1 1 [1, 1, 1, 1] 2 = none) :=
  ⟨by decide, by decide,
    unknown_boundary_diag_only_then_error "reflect" 1 1 [1, 1, 1, 1] 2
      (by decide) (by decide)⟩

/-- Mode Set used to exhibit the saveData defects: two stored modes with
distinct one-pixel profiles. -/
def modesEx9 : PyModes :=
  { freshModes with betas := [1, 2], profiles := [[0], [1]], number := 2 }

/-- Index profile used to exhibit the saveData defects: its X and Y
coordinate fields differ. -/
def ipEx9 : IndexProfile :=
  { npoints := 1, dh := 1, n := [2], X := [0], Y := [1] }

/-- C9: the archive written by saveData is not a sufficient snapshot - on
a solver holding two modes with profiles [[0], [1]], the stored
mode_profiles array is only profiles[1] = [1] (the first mode is
dropped), and the array saved under the name Y is the X coordinate field
of the index profile, not its Y field. -/
theorem save_data_incomplete_snapshot :
    ∃ a, saveData (some modesEx9) ipEx9 = some a ∧
      modesEx9.profiles = [[(0 : ℂ)], [(1 : ℂ)]] ∧
      a.mode_profiles = [(1 : ℂ)] ∧
      a.Y = ipEx9.X ∧ a.Y ≠ ipEx9.Y := by
  refine ⟨_, rfl, rfl, rfl, rfl, ?_⟩
  intro hEq
  simp [ipEx9] at hEq

end PyMMF
